import Mathlib

/-!
Verification of the four-vector module
(`src/Python/medium/classes_relativity/four_vector.py`).

The module is embedded over exact real numbers: the canonical stored
attributes `(px, py, pz, E)` form a structure, the derived quantities
`pt`, `phi`, `eta`, `M` are functions of that structure mirroring
`FourVector._calculate_derived_quantities`, and the four construction
bases are functions producing the canonical structure.  `eta` takes
values in `EReal` so that the source's `float('inf')` / `-float('inf')`
branches are represented by `⊤` / `⊥`.  `set_vector` and the
`__add__`/`__sub__` operand check are modelled with `Except`/`Option`
result types: `Except.error` stands for the raised `AttributeError`, and
`Option.none` for Python's `NotImplemented` (which the interpreter turns
into an unsupported-operand `TypeError`).
-/

namespace CodeCraft

noncomputable section

/-- Canonical stored attributes of `FourVector`: the private fields
`_px, _py, _pz, _E` set by `FourVector.__init__`. -/
structure FourVector where
  px : ℝ
  py : ℝ
  pz : ℝ
  E : ℝ

/-- Two-argument arctangent, the semantics of Python's `math.atan2(y, x)`
restricted to exact reals (no signed zeros): the angle of the point
`(x, y)` measured from the positive x-axis, in `(-π, π]`. -/
def atan2 (y x : ℝ) : ℝ :=
  if 0 < x then Real.arctan (y / x)
  else if x < 0 then
    if 0 ≤ y then Real.arctan (y / x) + Real.pi
    else Real.arctan (y / x) - Real.pi
  else
    if 0 < y then Real.pi / 2
    else if y < 0 then -(Real.pi / 2)
    else 0

/-- Derived quantity `self._pt = math.sqrt(self._px**2 + self._py**2)`. -/
def FourVector.pt (v : FourVector) : ℝ :=
  Real.sqrt (v.px ^ 2 + v.py ^ 2)

/-- Derived quantity `self._phi = math.atan2(self._py, self._px)`. -/
def FourVector.phi (v : FourVector) : ℝ :=
  atan2 v.py v.px

/-- The local variable `p = math.sqrt(self._px**2 + self._py**2 + self._pz**2)`
of `_calculate_derived_quantities`. -/
def FourVector.p (v : FourVector) : ℝ :=
  Real.sqrt (v.px ^ 2 + v.py ^ 2 + v.pz ^ 2)

/-- Derived quantity `self._eta`: `0.5 * log((p + pz) / (p - pz))` when
`p != abs(pz)`, otherwise `float('inf')` if `pz >= 0` else `-float('inf')`. -/
def FourVector.eta (v : FourVector) : EReal :=
  if v.p ≠ |v.pz| then
    (((0.5 : ℝ) * Real.log ((v.p + v.pz) / (v.p - v.pz)) : ℝ) : EReal)
  else if 0 ≤ v.pz then (⊤ : EReal)
  else (⊥ : EReal)

/-- Derived quantity `self._M = math.sqrt(max(self._E**2 - p**2, 0))`. -/
def FourVector.M (v : FourVector) : ℝ :=
  Real.sqrt (max (v.E ^ 2 - v.p ^ 2) 0)

/-- Constructor `PxPyPzEFourVector(px, py, pz, E)`: the inputs are taken
directly as the canonical attributes. -/
def PxPyPzEFourVector (px py pz E : ℝ) : FourVector :=
  ⟨px, py, pz, E⟩

/-- Constructor `PxPyPzMFourVector(px, py, pz, M)`: energy is derived as
`E = math.sqrt(px**2 + py**2 + pz**2 + M**2)` before canonical storage. -/
def PxPyPzMFourVector (px py pz M : ℝ) : FourVector :=
  ⟨px, py, pz, Real.sqrt (px ^ 2 + py ^ 2 + pz ^ 2 + M ^ 2)⟩

/-- Constructor `PtEtaPhiEFourVector(pt, eta, phi, E)`: Cartesian momentum
is derived as `px = pt*cos(phi)`, `py = pt*sin(phi)`, `pz = pt*sinh(eta)`
before canonical storage; `E` is stored unchanged. -/
def PtEtaPhiEFourVector (pt eta phi E : ℝ) : FourVector :=
  ⟨pt * Real.cos phi, pt * Real.sin phi, pt * Real.sinh eta, E⟩

/-- Constructor `PtEtaPhiMFourVector(pt, eta, phi, M)`: the angular inputs
are converted to Cartesian momentum exactly as in `PtEtaPhiEFourVector`,
then `E = math.sqrt(px**2 + py**2 + pz**2 + M**2)` as in
`PxPyPzMFourVector`. -/
def PtEtaPhiMFourVector (pt eta phi M : ℝ) : FourVector :=
  ⟨pt * Real.cos phi, pt * Real.sin phi, pt * Real.sinh eta,
    Real.sqrt ((pt * Real.cos phi) ^ 2 + (pt * Real.sin phi) ^ 2 +
      (pt * Real.sinh eta) ^ 2 + M ^ 2)⟩

/-- Componentwise sum on the canonical attributes, returning a
`PxPyPzEFourVector` — the body of `FourVector.__add__` after the
`isinstance` check has succeeded. -/
def FourVector.add (a b : FourVector) : FourVector :=
  PxPyPzEFourVector (a.px + b.px) (a.py + b.py) (a.pz + b.pz) (a.E + b.E)

/-- Componentwise difference on the canonical attributes, returning a
`PxPyPzEFourVector` — the body of `FourVector.__sub__` after the
`isinstance` check has succeeded. -/
def FourVector.sub (a b : FourVector) : FourVector :=
  PxPyPzEFourVector (a.px - b.px) (a.py - b.py) (a.pz - b.pz) (a.E - b.E)

/-- A Python value as far as `__add__`/`__sub__` can see it: either a
`FourVector` instance or some other (numeric) value. -/
inductive PyValue where
  | fourVector (v : FourVector) : PyValue
  | pyFloat (x : ℝ) : PyValue

/-- The `isinstance(other, FourVector)` test of `__add__`/`__sub__`. -/
def PyValue.isFourVector : PyValue → Bool
  | .fourVector _ => true
  | .pyFloat _ => false

/-- Full `FourVector.__add__`: returns `NotImplemented` (here `none`) for a
non-`FourVector` operand, otherwise the componentwise sum. -/
def FourVector.pyAdd (a : FourVector) (other : PyValue) : Option FourVector :=
  match other with
  | .fourVector b => some (a.add b)
  | .pyFloat _ => none

/-- Full `FourVector.__sub__`: returns `NotImplemented` (here `none`) for a
non-`FourVector` operand, otherwise the componentwise difference. -/
def FourVector.pySub (a : FourVector) (other : PyValue) : Option FourVector :=
  match other with
  | .fourVector b => some (a.sub b)
  | .pyFloat _ => none

/-- The message of the `AttributeError` raised by every `set_vector`. -/
def immutableMsg : String :=
  "FourVector instances are immutable and cannot be modified."

/-- Method `PxPyPzEFourVector.set_vector`: unconditionally raises
`AttributeError`; the instance is never touched. -/
def PxPyPzEFourVector.set_vector (v : FourVector) (px py pz E : ℝ) :
    Except String FourVector :=
  Except.error immutableMsg

/-- Method `PxPyPzMFourVector.set_vector`: unconditionally raises
`AttributeError`; the instance is never touched. -/
def PxPyPzMFourVector.set_vector (v : FourVector) (px py pz M : ℝ) :
    Except String FourVector :=
  Except.error immutableMsg

/-- Method `PtEtaPhiEFourVector.set_vector`: unconditionally raises
`AttributeError`; the instance is never touched. -/
def PtEtaPhiEFourVector.set_vector (v : FourVector) (pt eta phi E : ℝ) :
    Except String FourVector :=
  Except.error immutableMsg

/-- Method `PtEtaPhiMFourVector.set_vector`: unconditionally raises
`AttributeError`; the instance is never touched. -/
def PtEtaPhiMFourVector.set_vector (v : FourVector) (pt eta phi M : ℝ) :
    Except String FourVector :=
  Except.error immutableMsg

/-- Helper: `atan2` always lands in the half-open interval `(-π, π]`. -/
lemma atan2_bounds (y x : ℝ) : -Real.pi < atan2 y x ∧ atan2 y x ≤ Real.pi := by
  have hpi := Real.pi_pos
  have ha1 := Real.arctan_lt_pi_div_two (y / x)
  have ha2 := Real.neg_pi_div_two_lt_arctan (y / x)
  unfold atan2
  split_ifs with h1 h2 h3 h4 h5
  · constructor <;> linarith
  · have hyx : y / x ≤ 0 := div_nonpos_of_nonneg_of_nonpos h3 h2.le
    have h0 : Real.arctan (y / x) ≤ 0 := by
      have := Real.arctan_strictMono.monotone hyx
      rwa [Real.arctan_zero] at this
    constructor <;> linarith
  · have hy : y < 0 := lt_of_not_ge h3
    have hyx : 0 < y / x := div_pos_of_neg_of_neg hy h2
    have h0 : 0 < Real.arctan (y / x) := by
      have := Real.arctan_strictMono hyx
      rwa [Real.arctan_zero] at this
    constructor <;> linarith
  · constructor <;> linarith
  · constructor <;> linarith
  · constructor <;> linarith

/-- Helper: the projections of `PxPyPzEFourVector` are the inputs. -/
lemma pxpypze_fields (px py pz E : ℝ) :
    (PxPyPzEFourVector px py pz E).px = px ∧
    (PxPyPzEFourVector px py pz E).py = py ∧
    (PxPyPzEFourVector px py pz E).pz = pz ∧
    (PxPyPzEFourVector px py pz E).E = E :=
  ⟨rfl, rfl, rfl, rfl⟩

end

/-- C1: canonicalization of the non-canonical construction bases.
`PxPyPzMFourVector(px,py,pz,M)` stores `E = sqrt(px^2+py^2+pz^2+M^2)` with
`px, py, pz` unchanged; `PtEtaPhiEFourVector(pt,eta,phi,E)` stores
`px = pt*cos(phi)`, `py = pt*sin(phi)`, `pz = pt*sinh(eta)` with `E`
unchanged; and `PtEtaPhiMFourVector` applies the same angular-to-Cartesian
conversion followed by the same mass-to-energy conversion. -/
theorem constructors_canonicalize (px py pz M pt eta phi E : ℝ) :
    (PxPyPzMFourVector px py pz M).px = px ∧
    (PxPyPzMFourVector px py pz M).py = py ∧
    (PxPyPzMFourVector px py pz M).pz = pz ∧
    (PxPyPzMFourVector px py pz M).E =
      Real.sqrt (px ^ 2 + py ^ 2 + pz ^ 2 + M ^ 2) ∧
    (PtEtaPhiEFourVector pt eta phi E).px = pt * Real.cos phi ∧
    (PtEtaPhiEFourVector pt eta phi E).py = pt * Real.sin phi ∧
    (PtEtaPhiEFourVector pt eta phi E).pz = pt * Real.sinh eta ∧
    (PtEtaPhiEFourVector pt eta phi E).E = E ∧
    PtEtaPhiMFourVector pt eta phi M =
      PxPyPzMFourVector (pt * Real.cos phi) (pt * Real.sin phi)
        (pt * Real.sinh eta) M :=
  ⟨rfl, rfl, rfl, rfl, rfl, rfl, rfl, rfl, rfl⟩

/-- C6: addition is commutative, componentwise on all four canonical
attributes `px, py, pz, E`. -/
theorem add_commutative (a b : FourVector) :
    (a.add b).px = (b.add a).px ∧ (a.add b).py = (b.add a).py ∧
    (a.add b).pz = (b.add a).pz ∧ (a.add b).E = (b.add a).E := by
  simp only [FourVector.add, PxPyPzEFourVector]
  exact ⟨add_comm _ _, add_comm _ _, add_comm _ _, add_comm _ _⟩

/-- C7: subtracting a vector from itself yields the zero four-vector,
with `px = py = pz = E = 0` exactly. -/
theorem sub_self_zero (a : FourVector) :
    (a.sub a).px = 0 ∧ (a.sub a).py = 0 ∧
    (a.sub a).pz = 0 ∧ (a.sub a).E = 0 := by
  simp [FourVector.sub, PxPyPzEFourVector]

/-- C8: on every one of the four variants, with every argument combination
(the instance's own current values included), `set_vector` fails with the
immutability `AttributeError`; since it never returns an instance, every
attribute of the receiver is left unchanged. -/
theorem set_vector_always_fails (v : FourVector) (a b c d : ℝ) :
    PxPyPzEFourVector.set_vector v a b c d = Except.error immutableMsg ∧
    PxPyPzMFourVector.set_vector v a b c d = Except.error immutableMsg ∧
    PtEtaPhiEFourVector.set_vector v a b c d = Except.error immutableMsg ∧
    PtEtaPhiMFourVector.set_vector v a b c d = Except.error immutableMsg :=
  ⟨rfl, rfl, rfl, rfl⟩

/-- C4: for every `FourVector` (hence for every result of the four
construction bases and of `add`/`subtract`), the `pt` accessor is `≥ 0`
and the `M` accessor is `≥ 0`; in particular `px=1, py=0, pz=0, E=1`
gives `M = 0` because the radicand is clamped to zero. -/
theorem pt_M_nonneg :
    (∀ v : FourVector, 0 ≤ v.pt ∧ 0 ≤ v.M) ∧
    (PxPyPzEFourVector 1 0 0 1).M = 0 := by
  constructor
  · intro v
    exact ⟨Real.sqrt_nonneg _, Real.sqrt_nonneg _⟩
  · simp only [FourVector.M, FourVector.p, PxPyPzEFourVector]
    norm_num [Real.sqrt_one]

/-- C2: constructing `PxPyPzEFourVector(1,2,3,4)` yields the derived
quantities `pt = sqrt(5)`, `phi = atan2(2,1)`,
`eta = 0.5*ln((sqrt(14)+3)/(sqrt(14)-3))` and `M = sqrt(2)`. -/
theorem pxpypze_concrete :
    (PxPyPzEFourVector 1 2 3 4).pt = Real.sqrt 5 ∧
    (PxPyPzEFourVector 1 2 3 4).phi = atan2 2 1 ∧
    (PxPyPzEFourVector 1 2 3 4).eta =
      (((0.5 : ℝ) * Real.log ((Real.sqrt 14 + 3) / (Real.sqrt 14 - 3)) : ℝ) :
        EReal) ∧
    (PxPyPzEFourVector 1 2 3 4).M = Real.sqrt 2 := by
  have hp : (PxPyPzEFourVector 1 2 3 4).p = Real.sqrt 14 := by
    simp only [FourVector.p, PxPyPzEFourVector]
    norm_num
  have hpz3 : (PxPyPzEFourVector 1 2 3 4).pz = 3 := rfl
  have hE4 : (PxPyPzEFourVector 1 2 3 4).E = 4 := rfl
  have h14 : Real.sqrt 14 ^ 2 = 14 := Real.sq_sqrt (by norm_num)
  have hne : Real.sqrt 14 ≠ |(3 : ℝ)| := by
    rw [show |(3 : ℝ)| = 3 by norm_num]
    intro hcontra
    rw [hcontra] at h14
    norm_num at h14
  refine ⟨?_, rfl, ?_, ?_⟩
  · simp only [FourVector.pt, PxPyPzEFourVector]
    norm_num
  · simp only [FourVector.eta, hp, hpz3]
    rw [if_pos hne]
  · simp only [FourVector.M, hp, hE4]
    rw [show (4 : ℝ) ^ 2 - Real.sqrt 14 ^ 2 = 2 by rw [h14]; norm_num,
      show max (2 : ℝ) 0 = 2 by norm_num]

/-- C3: for every vector constructed from canonical inputs with
`px = 0` and `py = 0`, the `eta` accessor is `+∞` whenever `pz ≥ 0`
(hence whenever `pz > 0`) and `-∞` whenever `pz < 0`: the branch
triggers on the exact equality `p == abs(pz)`. -/
theorem eta_beam_axis (px py pz E : ℝ) (hx : px = 0) (hy : py = 0) :
    (0 ≤ pz → (PxPyPzEFourVector px py pz E).eta = ⊤) ∧
    (pz < 0 → (PxPyPzEFourVector px py pz E).eta = ⊥) := by
  subst hx
  subst hy
  have hp : (PxPyPzEFourVector 0 0 pz E).p = |pz| := by
    simp only [FourVector.p, PxPyPzEFourVector]
    rw [show (0 : ℝ) ^ 2 + 0 ^ 2 + pz ^ 2 = pz ^ 2 by ring,
      Real.sqrt_sq_eq_abs]
  have hpz : (PxPyPzEFourVector 0 0 pz E).pz = pz := rfl
  constructor
  · intro h
    simp [FourVector.eta, hp, hpz, h]
  · intro h
    simp [FourVector.eta, hp, hpz, h.not_le]

theorem eta_beam_axis_witness :
    (PxPyPzEFourVector 0 0 2 0).eta = ⊤ ∧
    (PxPyPzEFourVector 0 0 (-2) 0).eta = ⊥ :=
  ⟨(eta_beam_axis 0 0 2 0 rfl rfl).1 (by norm_num),
   (eta_beam_axis 0 0 (-2) 0 rfl rfl).2 (by norm_num)⟩

/-- C5: for real `(px, py)` not both zero, the `phi` accessor of a vector
constructed with those canonical components (energy basis or mass basis)
lies in the half-open interval `(-π, π]`. -/
theorem phi_range (px py pz E M : ℝ) (h : ¬(px = 0 ∧ py = 0)) :
    (-Real.pi < (PxPyPzEFourVector px py pz E).phi ∧
      (PxPyPzEFourVector px py pz E).phi ≤ Real.pi) ∧
    (-Real.pi < (PxPyPzMFourVector px py pz M).phi ∧
      (PxPyPzMFourVector px py pz M).phi ≤ Real.pi) :=
  ⟨atan2_bounds py px, atan2_bounds py px⟩

theorem phi_range_witness :
    -Real.pi < (PxPyPzEFourVector 1 2 0 0).phi ∧
    (PxPyPzEFourVector 1 2 0 0).phi ≤ Real.pi :=
  (phi_range 1 2 0 0 0 (by norm_num)).1

/-- C9: `__add__` and `__sub__` given an operand that is not a
`FourVector` return `NotImplemented` (modelled `none`, which Python
surfaces as an unsupported-operand `TypeError`) rather than coercing the
operand or producing a numeric result. -/
theorem add_sub_non_fourvector (a : FourVector) (x : PyValue)
    (h : x.isFourVector = false) :
    a.pyAdd x = none ∧ a.pySub x = none := by
  cases x with
  | fourVector b => simp [PyValue.isFourVector] at h
  | pyFloat r => exact ⟨rfl, rfl⟩

theorem add_sub_non_fourvector_witness :
    (PxPyPzEFourVector 1 2 3 4).pyAdd (PyValue.pyFloat 1) = none ∧
    (PxPyPzEFourVector 1 2 3 4).pySub (PyValue.pyFloat 1) = none :=
  add_sub_non_fourvector (PxPyPzEFourVector 1 2 3 4) (PyValue.pyFloat 1) rfl

/-- C10: for a vector constructed with canonical components
`px = 0` and `py = 0`, the `phi` accessor returns exactly `0`
(`atan2(0, 0) = 0`); no error occurs at the degenerate point. -/
theorem phi_zero_at_origin (px py pz E : ℝ) (hx : px = 0) (hy : py = 0) :
    (PxPyPzEFourVector px py pz E).phi = 0 := by
  subst hx
  subst hy
  show atan2 0 0 = 0
  norm_num [atan2]

theorem phi_zero_at_origin_witness : (PxPyPzEFourVector 0 0 5 7).phi = 0 :=
  phi_zero_at_origin 0 0 5 7 rfl rfl

end CodeCraft
